import Mathlib

set_option linter.unusedVariables false

/- Shallow embedding of the SleepPilot apnea-diagnosis RL environments:
   `layer2RLdiagnosis-v1/apnea_env.py` (class ApneaDetectionEnv),
   `layer2RLdiagnosis-v1/utils.py` (calculate_ece), and
   `layer2RLdiagnosis-model-2/apnea_detection_env.py` (class ApneaDetectionEnv).
   Python floats are modelled as rationals, numpy arrays as lists, and a call
   that can raise a Python exception as `Except EnvError`.  The random draw of
   `np.random.uniform(0.3, 0.9)` in the v1 DIAGNOSE branch is passed in as an
   explicit parameter `u`. -/

/-- Error taxonomy of the specification (InvalidActionError, InvalidStateError,
DataIntegrityError), plus the Python `IndexError` that bare list indexing in the
model-2 DIAGNOSE branch can actually raise. -/
inductive EnvError where
  | invalidAction
  | invalidState
  | dataIntegrity
  | indexError
deriving Repr, DecidableEq

/-- One audio segment of a patient record: its feature vector and its
ground-truth label (0 = normal, 1 = apnea). -/
structure Segment where
  features : List ℚ
  label : Nat
deriving Repr, DecidableEq

/-- Episode state of `ApneaDetectionEnv` in layer2RLdiagnosis-v1: the selected
patient's segments, the cursor `current_step`, and the parallel episode
tracking lists. -/
structure StateV1 where
  segments : List Segment
  featureDim : Nat
  maxEpisodeLength : Nat
  currentStep : Nat
  predictions : List Nat
  confidences : List ℚ
  rewards : List ℚ
  timestamps : List ℚ
deriving Repr, DecidableEq

/-- The `(observation, reward, terminated, truncated, info)` tuple returned by
`ApneaDetectionEnv.step` in v1, together with the post-call environment state
(whose tracking lists the returned info exposes). -/
structure StepResultV1 where
  obs : List ℚ
  reward : ℚ
  terminated : Bool
  truncated : Bool
  state : StateV1
deriving Repr, DecidableEq

/-- Python reset() for a chosen patient: cursor 0 and empty episode tracking lists. -/
def resetV1 (segments : List Segment) (featureDim maxEpisodeLength : Nat) : StateV1 :=
  { segments := segments, featureDim := featureDim, maxEpisodeLength := maxEpisodeLength,
    currentStep := 0, predictions := [], confidences := [], rewards := [], timestamps := [] }

/-- Computes `np.mean(np.abs(features))` (np.abs written out as its if form). -/
def meanAbs (xs : List ℚ) : ℚ :=
  (xs.map (fun x => if x < 0 then -x else x)).sum / (xs.length : ℚ)

/-- Embeds `_estimate_confidence`: `np.clip(np.mean(np.abs(features)) / 100, 0.1, 0.9)`
(clip written out: below 0.1 gives 0.1, above 0.9 gives 0.9, else the value). -/
def estimateConfidence (seg : Segment) : ℚ :=
  let raw := meanAbs seg.features / 100
  if raw < 1/10 then 1/10 else if 9/10 < raw then 9/10 else raw

/-- Computes `correctness = float(true_label == (confidence > 0.5))`; Python compares the
int label with the bool `confidence > 0.5`, i.e. with 1 or 0. -/
def correctness (confidence : ℚ) (true_label : Nat) : ℚ :=
  if true_label = (if (1:ℚ)/2 < confidence then 1 else 0) then 1 else 0

/-- The v1 DIAGNOSE reward: `max(correctness - 0.5*(confidence - correctness)**2
+ 0.1, -0.5)` (Python max written out as its if form). -/
def diagnoseRewardV1 (confidence : ℚ) (true_label : Nat) : ℚ :=
  let base := correctness confidence true_label
        - (1/2) * (confidence - correctness confidence true_label)^2 + 1/10
  if base < -(1/2) then -(1/2) else base

/-- The confidence value the v1 DIAGNOSE branch actually records: the heuristic
estimate, or the uniform redraw `u` when the estimate is below 0.3. -/
def usedConfV1 (s : StateV1) (u : ℚ) : ℚ :=
  match s.segments.get? s.currentStep with
  | some seg => if estimateConfidence seg < 3/10 then u else estimateConfidence seg
  | none => 0

/-- Embeds `_get_observation`: the features at the cursor, or a zero vector past the
end. -/
def observationV1 (s : StateV1) : List ℚ :=
  match s.segments.get? s.currentStep with
  | some seg => seg.features
  | none => List.replicate s.featureDim 0

/-- The common tail of `step` in v1 (lines 155-174): the final termination
check `if cursor >= len: terminated = True elif cursor >= max_episode_length:
truncated = True`, then building the returned tuple. -/
def finishV1 (s1 : StateV1) (reward : ℚ) (term0 trunc0 : Bool) : StepResultV1 :=
  { obs := observationV1 s1, reward := reward,
    terminated := if s1.segments.length ≤ s1.currentStep then true else term0,
    truncated := if s1.segments.length ≤ s1.currentStep then trunc0
                 else if s1.maxEpisodeLength ≤ s1.currentStep then true else trunc0,
    state := s1 }

/-- Embeds `ApneaDetectionEnv.step` of layer2RLdiagnosis-v1 (pure part; the body of the
Python method raises no exception on any action value, so the fallible wrapper
`stepV1` below always returns `ok` of this). -/
def stepV1Core (s : StateV1) (action : Int) (u : ℚ) : StepResultV1 :=
  if action = 0 then
    let s' : StateV1 := { s with currentStep := s.currentStep + 1 }
    if s.segments.length ≤ s'.currentStep then finishV1 s' 0 true false
    else if s.maxEpisodeLength ≤ s'.currentStep then finishV1 s' 0 false true
    else finishV1 s' 0 false false
  else if action = 1 then
    match s.segments.get? s.currentStep with
    | some seg =>
        let est := estimateConfidence seg
        let confidence := if est < 3/10 then u else est
        let reward := diagnoseRewardV1 confidence seg.label
        let prediction : Nat := if (1:ℚ)/2 < confidence then 1 else 0
        let timestamp : ℚ := (s.currentStep : ℚ) * 10
        let s' : StateV1 :=
          { s with predictions := s.predictions ++ [prediction],
                   confidences := s.confidences ++ [confidence],
                   rewards := s.rewards ++ [reward],
                   timestamps := s.timestamps ++ [timestamp],
                   currentStep := s.currentStep + 1 }
        finishV1 s' reward false false
    | none => finishV1 s 0 false false
  else if action = 2 then
    finishV1 s (-(1/10)) true false
  else
    finishV1 s 0 false false

/-- The v1 step as a fallible call. -/
def stepV1 (s : StateV1) (action : Int) (u : ℚ) : Except EnvError StepResultV1 :=
  Except.ok (stepV1Core s action u)

/-- The AHI-to-severity bucket chain of `_calculate_severity_score`
(lines 208-219). -/
def ahiToSeverity (ahi : ℚ) : ℚ :=
  if ahi < 5 then 1/10
  else if ahi < 15 then 2/10
  else if ahi < 25 then 4/10
  else if ahi < 35 then 6/10
  else if ahi < 50 then 8/10
  else 1

/-- Embeds `_calculate_severity_score(predictions, timestamps)` of v1; the timestamps
parameter is unused by the Python body as well. -/
def calculateSeverityScore (predictions : List Nat) (timestamps : List ℚ) : ℚ :=
  if predictions.length = 0 then 0
  else if predictions.sum = 0 then 0
  else
    let totalDurationHours : ℚ := (predictions.length : ℚ) * 10 / 3600
    if totalDurationHours = 0 then 0
    else ahiToSeverity ((predictions.sum : ℚ) / totalDurationHours)

/-- One iteration of the ECE bin loop on (confidence, label) pairs:
`bin_size * |mean(confidence in bin) - mean(label in bin)|` for a non-empty bin
`(lo, hi]`, and 0 for an empty bin (the skipped case). -/
def binTerm (pairs : List (ℚ × Nat)) (lo hi : ℚ) : ℚ :=
  let inBin := pairs.filter (fun p => decide (lo < p.1) && decide (p.1 ≤ hi))
  if inBin.length = 0 then 0
  else (inBin.length : ℚ) *
    |((inBin.map (fun p => p.1)).sum / (inBin.length : ℚ))
      - ((inBin.map (fun p => (p.2 : ℚ))).sum / (inBin.length : ℚ))|

/-- Computes `np.linspace(0, 1, n_bins + 1)`. -/
def binBoundaries (nBins : Nat) : List ℚ :=
  (List.range (nBins + 1)).map (fun i => (i : ℚ) / (nBins : ℚ))

/-- Computes `zip(bin_lowers, bin_uppers)`. -/
def binPairs (nBins : Nat) : List (ℚ × ℚ) :=
  (binBoundaries nBins).dropLast.zip ((binBoundaries nBins).drop 1)

/-- The accumulated ECE numerator over all bins. -/
def eceSum (pairs : List (ℚ × Nat)) (nBins : Nat) : ℚ :=
  ((binPairs nBins).map (fun b => binTerm pairs b.1 b.2)).sum

/-- Embeds `calculate_ece(confidences, predictions, true_labels, n_bins)` from
`layer2RLdiagnosis-v1/utils.py`.  The predictions argument is unused by the
Python body too.  The final `ece / len(confidences)` raises ZeroDivisionError
when `confidences` is empty (the accumulator is still the initial Python float
0.0 then), modelled as `none`. -/
def calculate_ece (confidences : List ℚ) (predictions : List Nat)
    (true_labels : List Nat) (n_bins : Nat) : Option ℚ :=
  if confidences.length = 0 then none
  else some (eceSum (confidences.zip true_labels) n_bins / (confidences.length : ℚ))

/-- The fields of the episode-metrics dictionary of v1's
`get_episode_metrics` that the claims are about. -/
structure MetricsV1 where
  accuracy : ℚ
  ece : ℚ
  meanConfidence : ℚ
  nPredictions : Nat
  nApneaEvents : Nat
  severityScore : ℚ
deriving Repr, DecidableEq

/-- The `np.mean(predictions == true_labels)` numerator: matching positions. -/
def matchCount (ps ls : List Nat) : Nat :=
  (ps.zip ls).countP (fun p => decide (p.1 = p.2))

/-- Embeds `get_episode_metrics` of v1: `{}` (none) when no prediction was recorded;
otherwise accuracy/ECE are computed against `labels[:n_predictions]` — the
patient's FIRST n labels — with the safety truncation of lines 238-242. -/
def getEpisodeMetricsV1 (s : StateV1) : Option MetricsV1 :=
  if s.predictions.length = 0 then none
  else
    let n := s.predictions.length
    let labels0 := (s.segments.map Segment.label).take n
    let preds := if labels0.length < n then s.predictions.take labels0.length else s.predictions
    let confs := if labels0.length < n then s.confidences.take labels0.length else s.confidences
    let tss := if labels0.length < n then s.timestamps.take labels0.length else s.timestamps
    let k := if labels0.length < n then labels0.length else n
    some { accuracy := (matchCount preds labels0 : ℚ) / (k : ℚ),
           ece := if 0 < k then eceSum (confs.zip labels0) 10 / (k : ℚ)
                  else eceSum (confs.zip labels0) 10 / 1,
           meanConfidence := confs.sum / (confs.length : ℚ),
           nPredictions := k,
           nApneaEvents := preds.sum,
           severityScore := calculateSeverityScore preds tss }

/-- One diagnosed-segment record of model-2 (`diagnosed_segments` entries). -/
structure DiagRecordM2 where
  segmentIdx : Nat
  label : Nat
  confidence : ℚ
  reward : ℚ
deriving Repr, DecidableEq

/-- Episode state of `ApneaDetectionEnv` in layer2RLdiagnosis-model-2.
`nSegments` is `len(self.audio_segments)` (the constructor receives the audio
segments and the labels as parallel lists). -/
structure StateM2 where
  labels : List Nat
  nSegments : Nat
  currentSegmentIdx : Nat
  diagnosed : List DiagRecordM2
  escalated : Bool
deriving Repr, DecidableEq

/-- The `(observation, reward, done, False, info)` tuple of model-2's `step`,
with the post-call state. -/
structure StepResultM2 where
  reward : ℚ
  done : Bool
  truncated : Bool
  state : StateM2
deriving Repr, DecidableEq

/-- Python reset() of model-2. -/
def resetM2 (labels : List Nat) : StateM2 :=
  { labels := labels, nSegments := labels.length, currentSegmentIdx := 0,
    diagnosed := [], escalated := false }

/-- Common tail of model-2 `step`: `if current_segment_idx >= len(audio_segments):
done = True`, truncated always False. -/
def finishM2 (s1 : StateM2) (reward : ℚ) (done0 : Bool) : StepResultM2 :=
  { reward := reward,
    done := done0 || decide (s1.nSegments ≤ s1.currentSegmentIdx),
    truncated := false, state := s1 }

/-- Embeds `ApneaDetectionEnv.step` of layer2RLdiagnosis-model-2.  The DIAGNOSE branch
indexes `self.labels[self.current_segment_idx]` with no bound check, so past
the end it raises IndexError; every other path returns normally. -/
def stepM2 (s : StateM2) (action : Int) : Except EnvError StepResultM2 :=
  if action = 0 then
    Except.ok (finishM2 { s with currentSegmentIdx := s.currentSegmentIdx + 1 } 0 false)
  else if action = 1 then
    match s.labels.get? s.currentSegmentIdx with
    | some lbl =>
        let confidence : ℚ := 7/10
        let corr : ℚ := (lbl : ℚ)
        let reward := corr - (confidence - corr)^2
        let s' : StateM2 :=
          { s with diagnosed := s.diagnosed ++ [⟨s.currentSegmentIdx, lbl, confidence, reward⟩],
                   currentSegmentIdx := s.currentSegmentIdx + 1 }
        Except.ok (finishM2 s' reward false)
    | none => Except.error EnvError.indexError
  else if action = 2 then
    Except.ok (finishM2 { s with escalated := true } (-(1/10)) true)
  else
    Except.ok (finishM2 s 0 false)

/-- The fields of model-2's `get_episode_results` dictionary that the claims
are about (the median-confidence field is not needed by any claim). -/
structure ResultsM2 where
  totalSegments : Nat
  apneaCount : Nat
  severity : ℚ
  ece : ℚ
  meanReward : ℚ
deriving Repr, DecidableEq

/-- Embeds `_calculate_ece(labels, confidences)` of model-2 (same bin loop; divides by
`len(labels)`, only reached with a non-empty diagnosis list). -/
def eceM2 (labels : List Nat) (confidences : List ℚ) : ℚ :=
  eceSum (confidences.zip labels) 10 / (labels.length : ℚ)

/-- Embeds `get_episode_results` of model-2: `{}` (none) when nothing was diagnosed. -/
def getEpisodeResultsM2 (s : StateM2) : Option ResultsM2 :=
  if s.diagnosed.length = 0 then none
  else
    let labels := s.diagnosed.map DiagRecordM2.label
    let confidences := s.diagnosed.map DiagRecordM2.confidence
    let rewards := s.diagnosed.map DiagRecordM2.reward
    some { totalSegments := s.diagnosed.length,
           apneaCount := labels.sum,
           severity := (labels.sum : ℚ) / (s.diagnosed.length : ℚ),
           ece := eceM2 labels confidences,
           meanReward := rewards.sum / (rewards.length : ℚ) }

/-- Whether a fallible call returned normally. -/
def exceptOk {α : Type} (e : Except EnvError α) : Bool :=
  match e with
  | Except.ok _ => true
  | Except.error _ => false

/-- A v1 episode state instrumented with ghost data: `g` records, for each
recorded DIAGNOSE, the cursor (segment index) at which it was taken, and `w`
counts the WAIT actions taken so far. -/
structure GStateV1 where
  st : StateV1
  g : List Nat
  w : Nat
deriving Repr, DecidableEq

/-- One instrumented v1 step: the underlying transition is exactly
`stepV1Core`; only the ghost fields are maintained alongside. -/
def stepG (gs : GStateV1) (action : Int) (u : ℚ) : GStateV1 :=
  let st' := (stepV1Core gs.st action u).state
  if action = 1 ∧ gs.st.currentStep < gs.st.segments.length then
    { st := st', g := gs.g ++ [gs.st.currentStep], w := gs.w }
  else if action = 0 then
    { st := st', g := gs.g, w := gs.w + 1 }
  else
    { st := st', g := gs.g, w := gs.w }

/-- Run a trace of (action, random draw) pairs from an instrumented state. -/
def runG (gs : GStateV1) (trace : List (Int × ℚ)) : GStateV1 :=
  trace.foldl (fun acc p => stepG acc p.1 p.2) gs

/-- Instrumented reset. -/
def initG (segments : List Segment) (featureDim maxEpisodeLength : Nat) : GStateV1 :=
  { st := resetV1 segments featureDim maxEpisodeLength, g := [], w := 0 }

/- Concrete states used by witnesses and counterexamples. -/

/-- A segment with estimated confidence 0.9 (no random redraw). -/
def segW1 : Segment := ⟨[100], 1⟩

/-- A two-segment v1 episode at its start. -/
def sW : StateV1 := resetV1 [segW1, ⟨[0], 0⟩] 1 100

/-- A two-segment model-2 episode at its start. -/
def sWm2 : StateM2 := resetM2 [1, 0]

/-- A two-segment v1 episode whose segments all have estimated confidence 0.1
(the redraw path). -/
def sLow : StateV1 := resetV1 [⟨[0], 0⟩, ⟨[0], 1⟩] 1 100

/-- A one-segment v1 episode; one WAIT terminates it. -/
def sDone : StateV1 := resetV1 [⟨[0], 1⟩] 1 100

/-- A model-2 state already past its last segment. -/
def sDoneM2 : StateM2 := { resetM2 [0] with currentSegmentIdx := 1 }

/-- Whether a list of (lower, upper) bins tiles the interval from `lo` to `hi`
consecutively. -/
def chainedBins : ℚ → List (ℚ × ℚ) → ℚ → Bool
  | lo, [], hi => decide (lo ≤ hi)
  | lo, b :: rest, hi => (decide (lo = b.1) && decide (b.1 ≤ b.2)) && chainedBins b.2 rest hi

/-- The timestamp recorded for a DIAGNOSE taken at a given cursor. -/
def tsOfCursor (c : Nat) : ℚ := (c : ℚ) * 10

/-- The invariant tying the instrumented run to the episode state: the cursor
counts WAITs plus recorded predictions, the ghost list is parallel to the
predictions, and every stored timestamp is 10 times the cursor at which its
DIAGNOSE was taken. -/
def GInv (gs : GStateV1) : Prop :=
  gs.st.currentStep = gs.w + gs.st.predictions.length
  ∧ gs.g.length = gs.st.predictions.length
  ∧ gs.st.timestamps = gs.g.map tsOfCursor

/-- A three-segment v1 episode state after one WAIT and one DIAGNOSE
(of segment 1, with redrawn confidence 0.4). -/
def sC10 : StateV1 :=
  { segments := [⟨[0], 0⟩, ⟨[0], 1⟩, ⟨[0], 1⟩], featureDim := 1, maxEpisodeLength := 100,
    currentStep := 2, predictions := [0], confidences := [2/5], rewards := [1/50],
    timestamps := [10] }

/-- The claim's phrasing of the DIAGNOSE correctness term:
`1.0 if (confidence > 0.5) == bool(true_label) else 0.0`. -/
def correctnessSpec (confidence : ℚ) (true_label : Nat) : ℚ :=
  if (decide ((1:ℚ)/2 < confidence) = decide (true_label ≠ 0)) then 1 else 0

/- Branch-shape lemmas for the v1 step function. -/

theorem finishV1_state (s1 : StateV1) (r : ℚ) (t0 t1 : Bool) :
    (finishV1 s1 r t0 t1).state = s1 := rfl

theorem finishV1_reward (s1 : StateV1) (r : ℚ) (t0 t1 : Bool) :
    (finishV1 s1 r t0 t1).reward = r := rfl

theorem stepV1Core_wait (s : StateV1) (u : ℚ) :
    (stepV1Core s 0 u).state = { s with currentStep := s.currentStep + 1 } := by
  unfold stepV1Core
  norm_num
  split_ifs <;> rfl

theorem usedConfV1_eq (s : StateV1) (u : ℚ) (seg : Segment)
    (h : s.segments.get? s.currentStep = some seg) :
    usedConfV1 s u =
      if estimateConfidence seg < 3/10 then u else estimateConfidence seg := by
  unfold usedConfV1
  rw [h]

theorem stepV1Core_diag_some (s : StateV1) (u : ℚ) (seg : Segment)
    (h : s.segments.get? s.currentStep = some seg) :
    stepV1Core s 1 u =
      finishV1
        { s with predictions := s.predictions ++ [if (1:ℚ)/2 < usedConfV1 s u then 1 else 0],
                 confidences := s.confidences ++ [usedConfV1 s u],
                 rewards := s.rewards ++ [diagnoseRewardV1 (usedConfV1 s u) seg.label],
                 timestamps := s.timestamps ++ [(s.currentStep : ℚ) * 10],
                 currentStep := s.currentStep + 1 }
        (diagnoseRewardV1 (usedConfV1 s u) seg.label) false false := by
  rw [usedConfV1_eq s u seg h]
  unfold stepV1Core
  rw [h]
  norm_num

theorem stepV1Core_diag_none (s : StateV1) (u : ℚ)
    (h : s.segments.get? s.currentStep = none) :
    stepV1Core s 1 u = finishV1 s 0 false false := by
  unfold stepV1Core
  rw [h]
  norm_num

theorem stepV1Core_esc (s : StateV1) (u : ℚ) :
    stepV1Core s 2 u = finishV1 s (-(1/10)) true false := by
  unfold stepV1Core
  norm_num

theorem stepV1Core_other (s : StateV1) (a : Int) (u : ℚ)
    (h0 : a ≠ 0) (h1 : a ≠ 1) (h2 : a ≠ 2) :
    stepV1Core s a u = finishV1 s 0 false false := by
  unfold stepV1Core
  rw [if_neg h0, if_neg h1, if_neg h2]

/- Model-2 branch-shape lemmas. -/

theorem stepM2_wait (s : StateM2) :
    stepM2 s 0 =
      Except.ok (finishM2 { s with currentSegmentIdx := s.currentSegmentIdx + 1 } 0 false) := by
  unfold stepM2
  norm_num

theorem stepM2_diag_some (s : StateM2) (lbl : Nat)
    (h : s.labels.get? s.currentSegmentIdx = some lbl) :
    stepM2 s 1 =
      Except.ok (finishM2
        { s with diagnosed := s.diagnosed ++
                   [⟨s.currentSegmentIdx, lbl, 7/10, (lbl : ℚ) - ((7:ℚ)/10 - (lbl : ℚ))^2⟩],
                 currentSegmentIdx := s.currentSegmentIdx + 1 }
        ((lbl : ℚ) - ((7:ℚ)/10 - (lbl : ℚ))^2) false) := by
  unfold stepM2
  rw [h]
  norm_num

theorem stepM2_diag_none (s : StateM2)
    (h : s.labels.get? s.currentSegmentIdx = none) :
    stepM2 s 1 = Except.error EnvError.indexError := by
  unfold stepM2
  rw [h]
  norm_num

theorem stepM2_esc (s : StateM2) :
    stepM2 s 2 = Except.ok (finishM2 { s with escalated := true } (-(1/10)) true) := by
  unfold stepM2
  norm_num

theorem stepM2_other (s : StateM2) (a : Int) (h0 : a ≠ 0) (h1 : a ≠ 1) (h2 : a ≠ 2) :
    stepM2 s a = Except.ok (finishM2 s 0 false) := by
  unfold stepM2
  rw [if_neg h0, if_neg h1, if_neg h2]

theorem correctness_eq_spec (c : ℚ) (lbl : Nat) (h : lbl = 0 ∨ lbl = 1) :
    correctness c lbl = correctnessSpec c lbl := by
  unfold correctness correctnessSpec
  by_cases hc : (1:ℚ)/2 < c
  · have h1 : (if (1:ℚ)/2 < c then (1:Nat) else 0) = 1 := if_pos hc
    have h2 : decide ((1:ℚ)/2 < c) = true := decide_eq_true hc
    rcases h with h | h <;> subst h <;> rw [h1, h2] <;> norm_num
  · have h1 : (if (1:ℚ)/2 < c then (1:Nat) else 0) = 0 := if_neg hc
    have h2 : decide ((1:ℚ)/2 < c) = false := decide_eq_false hc
    rcases h with h | h <;> subst h <;> rw [h1, h2] <;> norm_num

theorem correctness_cases (c : ℚ) (lbl : Nat) :
    correctness c lbl = 0 ∨ correctness c lbl = 1 := by
  unfold correctness
  split_ifs <;> simp

/-- With the confidence in [0,1] the floor clamp of the v1 DIAGNOSE reward is
inactive. -/
theorem diagnoseRewardV1_eq (c : ℚ) (lbl : Nat) (h0 : 0 ≤ c) (h1 : c ≤ 1) :
    diagnoseRewardV1 c lbl =
      correctness c lbl - (1/2) * (c - correctness c lbl)^2 + 1/10 := by
  unfold diagnoseRewardV1
  rcases correctness_cases c lbl with h | h <;> rw [h] <;>
    exact if_neg (not_lt.mpr (by nlinarith))

/-- The floor and the natural ceiling of the v1 DIAGNOSE reward, with no
assumption on the confidence. -/
theorem diagnoseRewardV1_bounds (c : ℚ) (lbl : Nat) :
    -(1/2) ≤ diagnoseRewardV1 c lbl ∧ diagnoseRewardV1 c lbl ≤ 11/10 := by
  simp only [diagnoseRewardV1]
  rcases correctness_cases c lbl with h | h <;> rw [h] <;> constructor <;>
    split_ifs with hf <;>
      first
        | exact not_lt.mp hf
        | nlinarith [sq_nonneg c, sq_nonneg (c - 1)]

theorem estimateConfidence_segW1 : estimateConfidence segW1 = 9/10 := by
  norm_num [estimateConfidence, meanAbs, segW1]

theorem usedConfV1_sW : usedConfV1 sW 0 = 9/10 := by
  rw [usedConfV1_eq sW 0 segW1 rfl, estimateConfidence_segW1]
  norm_num

theorem estimateConfidence_low : estimateConfidence ⟨[0], 0⟩ = 1/10 := by
  norm_num [estimateConfidence, meanAbs]

/-- C1: for a DIAGNOSE step with confidence in [0,1] and label in {0,1} the
reward equals `correctness - lambda*(confidence - correctness)^2 + epsilon`
with correctness as the claim states it; v1 uses lambda = 1/2 and
epsilon = 1/10 (the -0.5 floor clamp is never active on this domain), and
model-2 uses lambda = 1 and epsilon = 0 with its fixed confidence 0.7. -/
theorem diagnose_reward_formula :
    (∀ (s : StateV1) (u : ℚ) (seg : Segment) (r : StepResultV1),
        stepV1 s 1 u = Except.ok r →
        s.segments.get? s.currentStep = some seg →
        seg.label = 0 ∨ seg.label = 1 →
        0 ≤ usedConfV1 s u → usedConfV1 s u ≤ 1 →
        r.reward = correctnessSpec (usedConfV1 s u) seg.label
          - (1/2) * (usedConfV1 s u - correctnessSpec (usedConfV1 s u) seg.label)^2 + 1/10)
  ∧ (∀ (s : StateM2) (lbl : Nat) (r : StepResultM2),
        stepM2 s 1 = Except.ok r →
        s.labels.get? s.currentSegmentIdx = some lbl →
        lbl = 0 ∨ lbl = 1 →
        r.reward = correctnessSpec (7/10) lbl
          - 1 * ((7:ℚ)/10 - correctnessSpec (7/10) lbl)^2 + 0) := by
  constructor
  · intro s u seg r hok hget hlbl h0 h1
    unfold stepV1 at hok
    injection hok with hr
    subst hr
    rw [stepV1Core_diag_some s u seg hget, finishV1_reward,
        diagnoseRewardV1_eq _ _ h0 h1, correctness_eq_spec _ _ hlbl]
  · intro s lbl r hok hget hlbl
    rw [stepM2_diag_some s lbl hget] at hok
    injection hok with hr
    subst hr
    show (lbl : ℚ) - ((7:ℚ)/10 - (lbl : ℚ))^2 = _
    rcases hlbl with h | h <;> subst h <;> norm_num [correctnessSpec]

/-- Witness for C1: v1 diagnosing segment `segW1` (estimate 0.9, label 1), and
model-2 diagnosing label 1. -/
theorem diagnose_reward_formula_witness :
    (stepV1Core sW 1 0).reward
        = correctnessSpec (usedConfV1 sW 0) segW1.label
          - (1/2) * (usedConfV1 sW 0 - correctnessSpec (usedConfV1 sW 0) segW1.label)^2 + 1/10
    ∧ ((stepM2 sWm2 1).toOption.map StepResultM2.reward)
        = some (correctnessSpec (7/10) 1 - 1 * ((7:ℚ)/10 - correctnessSpec (7/10) 1)^2 + 0) := by
  constructor
  · exact diagnose_reward_formula.1 sW 0 segW1 (stepV1Core sW 1 0) rfl rfl
      (by decide) (by rw [usedConfV1_sW]; norm_num) (by rw [usedConfV1_sW]; norm_num)
  · obtain ⟨r, hr⟩ : ∃ r, stepM2 sWm2 1 = Except.ok r := ⟨_, rfl⟩
    have h := diagnose_reward_formula.2 sWm2 1 r hr (by decide) (by decide)
    rw [hr]
    show some r.reward = _
    rw [h]

/-- C2: for confidence in [0,1] and label in {0,1} the DIAGNOSE reward lies in
[-1/2, 11/10] in v1 (floor -0.5, exploration bonus 0.1) and in [-1/2, 1] in
model-2 (no exploration bonus). -/
theorem diagnose_reward_bounds :
    (∀ (s : StateV1) (u : ℚ) (seg : Segment) (r : StepResultV1),
        stepV1 s 1 u = Except.ok r →
        s.segments.get? s.currentStep = some seg →
        seg.label = 0 ∨ seg.label = 1 →
        0 ≤ usedConfV1 s u → usedConfV1 s u ≤ 1 →
        -(1/2) ≤ r.reward ∧ r.reward ≤ 11/10)
  ∧ (∀ (s : StateM2) (lbl : Nat) (r : StepResultM2),
        stepM2 s 1 = Except.ok r →
        s.labels.get? s.currentSegmentIdx = some lbl →
        lbl = 0 ∨ lbl = 1 →
        -(1/2) ≤ r.reward ∧ r.reward ≤ 1) := by
  constructor
  · intro s u seg r hok hget hlbl h0 h1
    unfold stepV1 at hok
    injection hok with hr
    subst hr
    rw [stepV1Core_diag_some s u seg hget, finishV1_reward]
    exact diagnoseRewardV1_bounds (usedConfV1 s u) seg.label
  · intro s lbl r hok hget hlbl
    rw [stepM2_diag_some s lbl hget] at hok
    injection hok with hr
    subst hr
    show -(1/2) ≤ (lbl : ℚ) - ((7:ℚ)/10 - (lbl : ℚ))^2
      ∧ (lbl : ℚ) - ((7:ℚ)/10 - (lbl : ℚ))^2 ≤ 1
    rcases hlbl with h | h <;> subst h <;> norm_num

/-- Witness for C2 at the same concrete inputs as the C1 witness. -/
theorem diagnose_reward_bounds_witness :
    (-(1/2) ≤ (stepV1Core sW 1 0).reward ∧ (stepV1Core sW 1 0).reward ≤ 11/10)
    ∧ ((stepM2 sWm2 1).toOption.map
        (fun r => decide (-(1/2) ≤ r.reward) && decide (r.reward ≤ 1)) = some true) := by
  constructor
  · exact diagnose_reward_bounds.1 sW 0 segW1 (stepV1Core sW 1 0) rfl rfl
      (by decide) (by rw [usedConfV1_sW]; norm_num) (by rw [usedConfV1_sW]; norm_num)
  · obtain ⟨r, hr⟩ : ∃ r, stepM2 sWm2 1 = Except.ok r := ⟨_, rfl⟩
    have h := diagnose_reward_bounds.2 sWm2 1 r hr (by decide) (by decide)
    rw [hr]
    show some (decide (-(1/2) ≤ r.reward) && decide (r.reward ≤ 1)) = some true
    rw [decide_eq_true h.1, decide_eq_true h.2]
    rfl

/- Cursor characterization of the two step functions. -/

theorem stepV1Core_cursor (s : StateV1) (a : Int) (u : ℚ) :
    (stepV1Core s a u).state.currentStep =
      if a = 0 then s.currentStep + 1
      else if a = 1 ∧ s.currentStep < s.segments.length then s.currentStep + 1
      else s.currentStep := by
  by_cases h0 : a = 0
  · subst h0
    rw [stepV1Core_wait, if_pos rfl]
  · by_cases h1 : a = 1
    · subst h1
      rcases h : s.segments.get? s.currentStep with _ | seg
      · rw [stepV1Core_diag_none s u h, finishV1_state]
        have hlen : s.segments.length ≤ s.currentStep := List.get?_eq_none.mp h
        rw [if_neg h0, if_neg (fun hc => absurd hc.2 (by omega))]
      · rw [stepV1Core_diag_some s u seg h, finishV1_state]
        obtain ⟨hlt, -⟩ := List.get?_eq_some.mp h
        rw [if_neg h0, if_pos (And.intro rfl hlt)]
    · by_cases h2 : a = 2
      · subst h2
        rw [stepV1Core_esc, finishV1_state, if_neg h0, if_neg (fun hc => h1 hc.1)]
      · rw [stepV1Core_other s a u h0 h1 h2, finishV1_state, if_neg h0,
            if_neg (fun hc => h1 hc.1)]

theorem stepM2_cursor (s : StateM2) (a : Int) (r : StepResultM2)
    (hok : stepM2 s a = Except.ok r) :
    r.state.currentSegmentIdx =
      if a = 0 ∨ a = 1 then s.currentSegmentIdx + 1 else s.currentSegmentIdx := by
  by_cases h0 : a = 0
  · subst h0
    rw [stepM2_wait] at hok
    injection hok with hr
    subst hr
    rw [if_pos (Or.inl rfl)]
    rfl
  · by_cases h1 : a = 1
    · subst h1
      rcases h : s.labels.get? s.currentSegmentIdx with _ | lbl
      · rw [stepM2_diag_none s h] at hok
        simp at hok
      · rw [stepM2_diag_some s lbl h] at hok
        injection hok with hr
        subst hr
        rw [if_pos (Or.inr rfl)]
        rfl
    · by_cases h2 : a = 2
      · subst h2
        rw [stepM2_esc] at hok
        injection hok with hr
        subst hr
        rw [if_neg (fun hc => hc.elim h0 h1)]
        rfl
      · rw [stepM2_other s a h0 h1 h2] at hok
        injection hok with hr
        subst hr
        rw [if_neg (fun hc => hc.elim h0 h1)]
        rfl

/-- C3 counterexample: an action value outside {0,1,2} does not fail; both
step functions return a normal result (the claim asserts an
InvalidActionError). -/
theorem invalid_action_counterexample :
    exceptOk (stepV1 sLow 3 0) = true ∧ exceptOk (stepM2 (resetM2 [0, 1]) 3) = true :=
  ⟨rfl, rfl⟩

/-- C3 amended: a step with an action outside {0,1,2} raises nothing: both
environments fall through every branch and return a normal result with reward
0.0 and the episode state unchanged, after the usual termination check. -/
theorem invalid_action_amended :
    (∀ (s : StateV1) (a : Int) (u : ℚ), a ≠ 0 → a ≠ 1 → a ≠ 2 →
        stepV1 s a u = Except.ok (finishV1 s 0 false false))
  ∧ (∀ (s : StateM2) (a : Int), a ≠ 0 → a ≠ 1 → a ≠ 2 →
        stepM2 s a = Except.ok (finishM2 s 0 false)) := by
  constructor
  · intro s a u h0 h1 h2
    unfold stepV1
    rw [stepV1Core_other s a u h0 h1 h2]
  · intro s a h0 h1 h2
    exact stepM2_other s a h0 h1 h2

/-- Witness for the amended C3, at action 3. -/
theorem invalid_action_amended_witness :
    stepV1 sLow 3 0 = Except.ok (finishV1 sLow 0 false false)
    ∧ stepM2 (resetM2 [0, 1]) 3 = Except.ok (finishM2 (resetM2 [0, 1]) 0 false) :=
  ⟨invalid_action_amended.1 sLow 3 0 (by decide) (by decide) (by decide),
   invalid_action_amended.2 (resetM2 [0, 1]) 3 (by decide) (by decide) (by decide)⟩

/-- C4 counterexample: after a step that returned terminated = true, a further
step() returns normally instead of raising InvalidStateError. -/
theorem step_after_done_counterexample :
    (stepV1Core sDone 0 0).terminated = true
    ∧ exceptOk (stepV1 (stepV1Core sDone 0 0).state 0 0) = true :=
  ⟨rfl, rfl⟩

/-- C4 amended: neither environment tracks a RUNNING/DONE flag and no
InvalidStateError exists.  The v1 step never raises, for any state and action;
the model-2 step returns normally after the episode is done for WAIT and
ESCALATE, and a DIAGNOSE past the last segment raises IndexError (bare list
indexing), not InvalidStateError. -/
theorem step_after_done_amended :
    (∀ (s : StateV1) (a : Int) (u : ℚ), exceptOk (stepV1 s a u) = true)
  ∧ (∀ s : StateM2, s.nSegments ≤ s.currentSegmentIdx →
        exceptOk (stepM2 s 0) = true ∧ exceptOk (stepM2 s 2) = true)
  ∧ (∀ s : StateM2, s.labels.length ≤ s.currentSegmentIdx →
        stepM2 s 1 = Except.error EnvError.indexError) := by
  refine ⟨fun s a u => rfl, fun s h => ⟨?_, ?_⟩, fun s h => ?_⟩
  · rw [stepM2_wait]
    rfl
  · rw [stepM2_esc]
    rfl
  · exact stepM2_diag_none s (List.get?_eq_none.mpr h)

/-- Witness for the amended C4, on episodes that are already done. -/
theorem step_after_done_amended_witness :
    exceptOk (stepV1 (stepV1Core sDone 0 0).state 0 0) = true
    ∧ (exceptOk (stepM2 sDoneM2 0) = true ∧ exceptOk (stepM2 sDoneM2 2) = true)
    ∧ stepM2 sDoneM2 1 = Except.error EnvError.indexError :=
  ⟨step_after_done_amended.1 (stepV1Core sDone 0 0).state 0 0,
   step_after_done_amended.2.1 sDoneM2 (by decide),
   step_after_done_amended.2.2 sDoneM2 (by decide)⟩

/-- C5 counterexample: an ESCALATE step leaves the cursor unchanged in both
environments (the claim asserts the cursor strictly increases by 1 on every
step regardless of action). -/
theorem cursor_escalate_counterexample :
    (stepV1Core sLow 2 0).state.currentStep = 0
    ∧ ¬((stepV1Core sLow 2 0).state.currentStep = sLow.currentStep + 1)
    ∧ (stepM2 (resetM2 [0, 1]) 2).toOption.map
        (fun r => r.state.currentSegmentIdx) = some 0 :=
  ⟨rfl, by decide, rfl⟩

/-- C5 amended: the cursor is non-decreasing across step() calls; it increases
by exactly 1 on WAIT and on DIAGNOSE (v1: while segments remain, and a v1
DIAGNOSE past the last segment leaves it unchanged), and it is unchanged by
ESCALATE and by unrecognized actions. -/
theorem cursor_monotonicity :
    (∀ (s : StateV1) (a : Int) (u : ℚ),
        s.currentStep ≤ (stepV1Core s a u).state.currentStep
        ∧ (a = 0 → (stepV1Core s a u).state.currentStep = s.currentStep + 1)
        ∧ (a = 1 → s.currentStep < s.segments.length →
            (stepV1Core s a u).state.currentStep = s.currentStep + 1)
        ∧ (a = 1 → s.segments.length ≤ s.currentStep →
            (stepV1Core s a u).state.currentStep = s.currentStep)
        ∧ (a = 2 → (stepV1Core s a u).state.currentStep = s.currentStep)
        ∧ (a ≠ 0 → a ≠ 1 → a ≠ 2 →
            (stepV1Core s a u).state.currentStep = s.currentStep))
  ∧ (∀ (s : StateM2) (a : Int) (r : StepResultM2), stepM2 s a = Except.ok r →
        s.currentSegmentIdx ≤ r.state.currentSegmentIdx
        ∧ ((a = 0 ∨ a = 1) → r.state.currentSegmentIdx = s.currentSegmentIdx + 1)
        ∧ (a = 2 → r.state.currentSegmentIdx = s.currentSegmentIdx)
        ∧ (a ≠ 0 → a ≠ 1 → a ≠ 2 →
            r.state.currentSegmentIdx = s.currentSegmentIdx)) := by
  constructor
  · intro s a u
    rw [stepV1Core_cursor]
    refine ⟨?_, ?_, ?_, ?_, ?_, ?_⟩
    · split_ifs <;> omega
    · intro ha
      rw [if_pos ha]
    · intro ha hlt
      subst ha
      rw [if_neg (by decide), if_pos ⟨rfl, hlt⟩]
    · intro ha hge
      subst ha
      rw [if_neg (by decide), if_neg (fun hc => absurd hc.2 (by omega))]
    · intro ha
      subst ha
      rw [if_neg (by decide), if_neg (fun hc => absurd hc.1 (by decide))]
    · intro h0 h1 h2
      rw [if_neg h0, if_neg (fun hc => h1 hc.1)]
  · intro s a r hok
    rw [stepM2_cursor s a r hok]
    refine ⟨?_, ?_, ?_, ?_⟩
    · split_ifs <;> omega
    · intro h
      rw [if_pos h]
    · intro h
      subst h
      rw [if_neg (by decide)]
    · intro h0 h1 h2
      rw [if_neg (fun hc => hc.elim h0 h1)]

/-- Witness for the amended C5: one WAIT and one ESCALATE, in both
environments. -/
theorem cursor_monotonicity_witness :
    (stepV1Core sLow 0 0).state.currentStep = sLow.currentStep + 1
    ∧ (stepV1Core sLow 2 0).state.currentStep = sLow.currentStep
    ∧ (stepM2 (resetM2 [0, 1]) 2).toOption.map
        (fun x => x.state.currentSegmentIdx) = some (resetM2 [0, 1]).currentSegmentIdx := by
  refine ⟨(cursor_monotonicity.1 sLow 0 0).2.1 rfl,
          (cursor_monotonicity.1 sLow 2 0).2.2.2.2.1 rfl, ?_⟩
  obtain ⟨r, hr⟩ : ∃ r, stepM2 (resetM2 [0, 1]) 2 = Except.ok r := ⟨_, rfl⟩
  have h := (cursor_monotonicity.2 (resetM2 [0, 1]) 2 r hr).2.2.1 rfl
  rw [hr]
  show some r.state.currentSegmentIdx = _
  rw [h]

/-- C7 counterexample: a non-empty prediction list with zero apnea events gets
severity 0.0 from the code, not the 0.1 that the < 5 bucket (AHI = 0) would
give. -/
theorem severity_zero_events_counterexample :
    calculateSeverityScore [0, 0] [0, 10] = 0
    ∧ ¬(calculateSeverityScore [0, 0] [0, 10] = 1/10) := by
  refine ⟨rfl, fun h => ?_⟩
  rw [show calculateSeverityScore [0, 0] [0, 10] = 0 from rfl] at h
  norm_num at h

/-- C7 amended: with at least one apnea event the severity is
AHI = events/(duration in hours) pushed through the stated buckets, and the
bucket map is non-decreasing; an input with zero apnea events short-circuits
to severity 0.0 instead of the 0.1 bucket. -/
theorem severity_buckets :
    (∀ (preds : List Nat) (tss : List ℚ), preds.sum ≠ 0 →
        calculateSeverityScore preds tss
          = ahiToSeverity ((preds.sum : ℚ) / ((preds.length : ℚ) * 10 / 3600)))
  ∧ (∀ (preds : List Nat) (tss : List ℚ), preds.sum = 0 →
        calculateSeverityScore preds tss = 0)
  ∧ (∀ a b : ℚ, a ≤ b → ahiToSeverity a ≤ ahiToSeverity b)
  ∧ (∀ a : ℚ, a < 5 → ahiToSeverity a = 1/10)
  ∧ (∀ a : ℚ, 5 ≤ a → a < 15 → ahiToSeverity a = 2/10)
  ∧ (∀ a : ℚ, 15 ≤ a → a < 25 → ahiToSeverity a = 4/10)
  ∧ (∀ a : ℚ, 25 ≤ a → a < 35 → ahiToSeverity a = 6/10)
  ∧ (∀ a : ℚ, 35 ≤ a → a < 50 → ahiToSeverity a = 8/10)
  ∧ (∀ a : ℚ, 50 ≤ a → ahiToSeverity a = 1) := by
  refine ⟨?_, ?_, ?_, ?_, ?_, ?_, ?_, ?_, ?_⟩
  · intro preds tss hsum
    have hne : preds.length ≠ 0 := by
      intro h
      rw [List.length_eq_zero.mp h] at hsum
      exact hsum rfl
    have hlen : (0:ℚ) < (preds.length : ℚ) := by
      exact_mod_cast Nat.pos_of_ne_zero hne
    have hdur : ((preds.length : ℚ) * 10 / 3600) ≠ 0 :=
      div_ne_zero (mul_ne_zero (ne_of_gt hlen) (by norm_num)) (by norm_num)
    simp only [calculateSeverityScore]
    rw [if_neg hne, if_neg hsum, if_neg hdur]
  · intro preds tss h
    simp only [calculateSeverityScore]
    by_cases hl : preds.length = 0
    · rw [if_pos hl]
    · rw [if_neg hl, if_pos h]
  · intro a b hab
    unfold ahiToSeverity
    split_ifs <;> linarith
  all_goals intro a
  all_goals intros
  all_goals unfold ahiToSeverity
  all_goals split_ifs <;> linarith

/-- Witness for the amended C7: one apnea event in one 10-second segment gives
AHI 360 (bucket 1.0); zero events give 0.0; each bucket at a sample point. -/
theorem severity_buckets_witness :
    calculateSeverityScore [1] [0]
      = ahiToSeverity ((([1] : List Nat).sum : ℚ) / ((([1] : List Nat).length : ℚ) * 10 / 3600))
    ∧ calculateSeverityScore [0] [0] = 0
    ∧ ahiToSeverity 3 ≤ ahiToSeverity 7
    ∧ ahiToSeverity 3 = 1/10
    ∧ ahiToSeverity 7 = 2/10
    ∧ ahiToSeverity 17 = 4/10
    ∧ ahiToSeverity 27 = 6/10
    ∧ ahiToSeverity 37 = 8/10
    ∧ ahiToSeverity 57 = 1 :=
  ⟨severity_buckets.1 [1] [0] (by decide),
   severity_buckets.2.1 [0] [0] rfl,
   severity_buckets.2.2.1 3 7 (by norm_num),
   severity_buckets.2.2.2.1 3 (by norm_num),
   severity_buckets.2.2.2.2.1 7 (by norm_num) (by norm_num),
   severity_buckets.2.2.2.2.2.1 17 (by norm_num) (by norm_num),
   severity_buckets.2.2.2.2.2.2.1 27 (by norm_num) (by norm_num),
   severity_buckets.2.2.2.2.2.2.2.1 37 (by norm_num) (by norm_num),
   severity_buckets.2.2.2.2.2.2.2.2 57 (by norm_num)⟩

/-- C8 counterexample: an episode whose only action is ESCALATE terminates
with reward -0.1 and no predictions, and the aggregation then returns the
empty mapping (none), not a well-defined metrics record. -/
theorem empty_metrics_counterexample :
    (stepV1Core sLow 2 0).reward = -(1/10)
    ∧ (stepV1Core sLow 2 0).terminated = true
    ∧ (stepV1Core sLow 2 0).state.predictions = []
    ∧ getEpisodeMetricsV1 (stepV1Core sLow 2 0).state = none
    ∧ (stepM2 (resetM2 [0, 1]) 2).toOption.map
        (fun r => getEpisodeResultsM2 r.state) = some none :=
  ⟨rfl, rfl, rfl, rfl, rfl⟩

/-- C8 amended: an episode with zero DIAGNOSE actions makes both aggregation
functions return the empty mapping (modelled as none), not a zero-filled
record; the ESCALATE-first behaviour (immediate termination, reward -0.1, no
predictions) holds as claimed. -/
theorem empty_metrics_amended :
    (∀ s : StateV1, s.predictions = [] → getEpisodeMetricsV1 s = none)
  ∧ (∀ s : StateM2, s.diagnosed = [] → getEpisodeResultsM2 s = none)
  ∧ (∀ (segs : List Segment) (dim maxLen : Nat) (u : ℚ),
        (stepV1Core (resetV1 segs dim maxLen) 2 u).reward = -(1/10)
        ∧ (stepV1Core (resetV1 segs dim maxLen) 2 u).terminated = true
        ∧ (stepV1Core (resetV1 segs dim maxLen) 2 u).state.predictions = []
        ∧ getEpisodeMetricsV1 (stepV1Core (resetV1 segs dim maxLen) 2 u).state = none) := by
  refine ⟨?_, ?_, ?_⟩
  · intro s h
    simp [getEpisodeMetricsV1, h]
  · intro s h
    simp [getEpisodeResultsM2, h]
  · intro segs dim maxLen u
    rw [stepV1Core_esc]
    refine ⟨rfl, ?_, rfl, ?_⟩
    · show (if segs.length ≤ 0 then true else true) = true
      split_ifs <;> rfl
    · simp [finishV1_state, getEpisodeMetricsV1, resetV1]

/-- Witness for the amended C8. -/
theorem empty_metrics_amended_witness :
    getEpisodeMetricsV1 sLow = none
    ∧ getEpisodeResultsM2 (resetM2 [0, 1]) = none
    ∧ (stepV1Core (resetV1 [⟨[0], 0⟩] 1 100) 2 0).reward = -(1/10) :=
  ⟨empty_metrics_amended.1 sLow rfl,
   empty_metrics_amended.2.1 (resetM2 [0, 1]) rfl,
   (empty_metrics_amended.2.2 [⟨[0], 0⟩] 1 100 0).1⟩

/-- C9: the v1 DIAGNOSE step is not a function of (state, action): whenever
the heuristic estimate is below 0.3 the recorded confidence is the fresh
uniform draw, so two runs from the identical state with the identical action
but different draws record different confidences, predictions and rewards. -/
theorem diagnose_nondeterminism :
    (∀ (s : StateV1) (u : ℚ) (seg : Segment),
        s.segments.get? s.currentStep = some seg →
        estimateConfidence seg < 3/10 →
        (stepV1Core s 1 u).state.confidences = s.confidences ++ [u])
  ∧ ((3:ℚ)/10 ≤ 2/5 ∧ (2:ℚ)/5 < 9/10 ∧ (3:ℚ)/10 ≤ 4/5 ∧ (4:ℚ)/5 < 9/10
      ∧ estimateConfidence ⟨[0], 0⟩ < 3/10
      ∧ (stepV1Core sLow 1 (2/5)).state.confidences
          ≠ (stepV1Core sLow 1 (4/5)).state.confidences
      ∧ (stepV1Core sLow 1 (2/5)).state.predictions
          ≠ (stepV1Core sLow 1 (4/5)).state.predictions
      ∧ (stepV1Core sLow 1 (2/5)).state.rewards
          ≠ (stepV1Core sLow 1 (4/5)).state.rewards) := by
  have hlow : estimateConfidence ⟨[0], 0⟩ < 3/10 := by
    rw [estimateConfidence_low]
    norm_num
  have hconf : ∀ u : ℚ, (stepV1Core sLow 1 u).state.confidences = [u] := by
    intro u
    rw [stepV1Core_diag_some sLow u ⟨[0], 0⟩ rfl, finishV1_state]
    show [] ++ [usedConfV1 sLow u] = [u]
    rw [usedConfV1_eq sLow u ⟨[0], 0⟩ rfl, if_pos hlow]
    rfl
  have hpred : ∀ u : ℚ,
      (stepV1Core sLow 1 u).state.predictions = [if (1:ℚ)/2 < u then 1 else 0] := by
    intro u
    rw [stepV1Core_diag_some sLow u ⟨[0], 0⟩ rfl, finishV1_state]
    show [] ++ [if (1:ℚ)/2 < usedConfV1 sLow u then 1 else 0] = _
    rw [usedConfV1_eq sLow u ⟨[0], 0⟩ rfl, if_pos hlow]
    rfl
  have hrew : ∀ u : ℚ,
      (stepV1Core sLow 1 u).state.rewards = [diagnoseRewardV1 u 0] := by
    intro u
    rw [stepV1Core_diag_some sLow u ⟨[0], 0⟩ rfl, finishV1_state]
    show [] ++ [diagnoseRewardV1 (usedConfV1 sLow u) (Segment.label ⟨[0], 0⟩)] = _
    rw [usedConfV1_eq sLow u ⟨[0], 0⟩ rfl, if_pos hlow]
    rfl
  have hr1 : diagnoseRewardV1 (2/5) 0 = 23/25 := by
    rw [diagnoseRewardV1_eq _ _ (by norm_num) (by norm_num)]
    norm_num [correctness]
  have hr2 : diagnoseRewardV1 (4/5) 0 = -(11/50) := by
    rw [diagnoseRewardV1_eq _ _ (by norm_num) (by norm_num)]
    norm_num [correctness]
  refine ⟨?_, by norm_num, by norm_num, by norm_num, by norm_num, hlow, ?_, ?_, ?_⟩
  · intro s u seg hget hl
    rw [stepV1Core_diag_some s u seg hget, finishV1_state]
    show s.confidences ++ [usedConfV1 s u] = _
    rw [usedConfV1_eq s u seg hget, if_pos hl]
  · rw [hconf (2/5), hconf (4/5)]
    intro h
    injection h with h1 _
    norm_num at h1
  · rw [hpred (2/5), hpred (4/5)]
    intro h
    injection h with h1 _
    rw [if_neg (by norm_num : ¬((1:ℚ)/2 < 2/5)), if_pos (by norm_num : (1:ℚ)/2 < 4/5)] at h1
    norm_num at h1
  · rw [hrew (2/5), hrew (4/5)]
    intro h
    injection h with h1 _
    rw [hr1, hr2] at h1
    norm_num at h1

/-- Witness for C9's universal part: the redraw is recorded verbatim. -/
theorem diagnose_nondeterminism_witness :
    (stepV1Core sLow 1 (2/5)).state.confidences = sLow.confidences ++ [2/5] :=
  diagnose_nondeterminism.1 sLow (2/5) ⟨[0], 0⟩ rfl
    (by rw [estimateConfidence_low]; norm_num)

/- Bounds machinery for the ECE bin loop. -/

theorem qsum_nonneg (l : List ℚ) : (∀ x ∈ l, 0 ≤ x) → 0 ≤ l.sum := by
  induction l with
  | nil =>
    intro h
    simp
  | cons a t ih =>
    intro h
    rw [List.sum_cons]
    exact add_nonneg (h a (List.mem_cons_self a t))
      (ih fun x hx => h x (List.mem_cons_of_mem a hx))

theorem qsum_le_length (l : List ℚ) : (∀ x ∈ l, x ≤ 1) → l.sum ≤ (l.length : ℚ) := by
  induction l with
  | nil =>
    intro h
    simp
  | cons a t ih =>
    intro h
    rw [List.sum_cons, List.length_cons]
    push_cast
    have ht := ih fun x hx => h x (List.mem_cons_of_mem a hx)
    have ha := h a (List.mem_cons_self a t)
    linarith

theorem binTerm_nonneg (pairs : List (ℚ × Nat)) (lo hi : ℚ) : 0 ≤ binTerm pairs lo hi := by
  simp only [binTerm]
  split_ifs with h
  · exact le_refl 0
  · positivity

theorem binTerm_le_count (pairs : List (ℚ × Nat))
    (hc : ∀ p ∈ pairs, 0 ≤ p.1 ∧ p.1 ≤ 1) (hl : ∀ p ∈ pairs, p.2 ≤ 1) (lo hi : ℚ) :
    binTerm pairs lo hi
      ≤ ((pairs.countP fun p => decide (lo < p.1) && decide (p.1 ≤ hi)) : ℚ) := by
  simp only [binTerm]
  rw [List.countP_eq_length_filter]
  split_ifs with h
  · positivity
  · set inBin := pairs.filter (fun p => decide (lo < p.1) && decide (p.1 ≤ hi)) with hdef
    have hlen : (0:ℚ) < (inBin.length : ℚ) := by
      exact_mod_cast Nat.pos_of_ne_zero h
    have hmem : ∀ p ∈ inBin, p ∈ pairs := fun p hp => List.mem_of_mem_filter hp
    have h1a : 0 ≤ (inBin.map (fun p => p.1)).sum := by
      apply qsum_nonneg
      intro x hx
      obtain ⟨p, hp, rfl⟩ := List.mem_map.mp hx
      exact (hc p (hmem p hp)).1
    have h1b : (inBin.map (fun p => p.1)).sum ≤ (inBin.length : ℚ) := by
      have := qsum_le_length (inBin.map (fun p => p.1)) (by
        intro x hx
        obtain ⟨p, hp, rfl⟩ := List.mem_map.mp hx
        exact (hc p (hmem p hp)).2)
      rwa [List.length_map] at this
    have h2a : 0 ≤ (inBin.map (fun p => (p.2 : ℚ))).sum := by
      apply qsum_nonneg
      intro x hx
      obtain ⟨p, hp, rfl⟩ := List.mem_map.mp hx
      positivity
    have h2b : (inBin.map (fun p => (p.2 : ℚ))).sum ≤ (inBin.length : ℚ) := by
      have := qsum_le_length (inBin.map (fun p => (p.2 : ℚ))) (by
        intro x hx
        obtain ⟨p, hp, rfl⟩ := List.mem_map.mp hx
        exact_mod_cast hl p (hmem p hp))
      rwa [List.length_map] at this
    have hd1a : 0 ≤ (inBin.map (fun p => p.1)).sum / (inBin.length : ℚ) :=
      div_nonneg h1a hlen.le
    have hd1b : (inBin.map (fun p => p.1)).sum / (inBin.length : ℚ) ≤ 1 :=
      (div_le_one hlen).mpr h1b
    have hd2a : 0 ≤ (inBin.map (fun p => (p.2 : ℚ))).sum / (inBin.length : ℚ) :=
      div_nonneg h2a hlen.le
    have hd2b : (inBin.map (fun p => (p.2 : ℚ))).sum / (inBin.length : ℚ) ≤ 1 :=
      (div_le_one hlen).mpr h2b
    have habs : |(inBin.map (fun p => p.1)).sum / (inBin.length : ℚ)
        - (inBin.map (fun p => (p.2 : ℚ))).sum / (inBin.length : ℚ)| ≤ 1 :=
      abs_le.mpr ⟨by linarith, by linarith⟩
    calc (inBin.length : ℚ) * |(inBin.map (fun p => p.1)).sum / (inBin.length : ℚ)
          - (inBin.map (fun p => (p.2 : ℚ))).sum / (inBin.length : ℚ)|
        ≤ (inBin.length : ℚ) * 1 := mul_le_mul_of_nonneg_left habs hlen.le
      _ = (inBin.length : ℚ) := mul_one _

theorem countP_or_le {α : Type} (p q r : α → Bool) (l : List α)
    (h : ∀ x ∈ l, (p x = true → r x = true) ∧ (q x = true → r x = true)
          ∧ ¬(p x = true ∧ q x = true)) :
    l.countP p + l.countP q ≤ l.countP r := by
  induction l with
  | nil => simp
  | cons a t ih =>
    have ha := h a (List.mem_cons_self a t)
    have iht := ih fun x hx => h x (List.mem_cons_of_mem a hx)
    rw [List.countP_cons, List.countP_cons, List.countP_cons]
    cases hp : p a <;> cases hq : q a <;> cases hr : r a <;> simp_all <;> omega

theorem chainedBins_le (bs : List (ℚ × ℚ)) :
    ∀ lo hi : ℚ, chainedBins lo bs hi = true → lo ≤ hi := by
  induction bs with
  | nil =>
    intro lo hi h
    simpa [chainedBins] using h
  | cons b rest ih =>
    intro lo hi h
    simp only [chainedBins, Bool.and_eq_true, decide_eq_true_eq] at h
    obtain ⟨⟨h1, h2⟩, h3⟩ := h
    exact h1 ▸ le_trans h2 (ih b.2 hi h3)

theorem sumBinTerm_le (pairs : List (ℚ × Nat))
    (hc : ∀ p ∈ pairs, 0 ≤ p.1 ∧ p.1 ≤ 1) (hl : ∀ p ∈ pairs, p.2 ≤ 1) :
    ∀ (bs : List (ℚ × ℚ)) (lo hi : ℚ), chainedBins lo bs hi = true →
      ((bs.map (fun b => binTerm pairs b.1 b.2)).sum
        ≤ (pairs.countP (fun p => decide (lo < p.1) && decide (p.1 ≤ hi)) : ℚ)) := by
  intro bs
  induction bs with
  | nil =>
    intro lo hi h
    simp only [List.map_nil, List.sum_nil]
    positivity
  | cons b rest ih =>
    intro lo hi h
    simp only [chainedBins, Bool.and_eq_true, decide_eq_true_eq] at h
    obtain ⟨⟨h1, h2⟩, h3⟩ := h
    subst h1
    rw [List.map_cons, List.sum_cons]
    have hb := binTerm_le_count pairs hc hl b.1 b.2
    have hrest := ih b.2 hi h3
    have hhi : b.2 ≤ hi := chainedBins_le rest b.2 hi h3
    have hcount : pairs.countP (fun p => decide (b.1 < p.1) && decide (p.1 ≤ b.2))
        + pairs.countP (fun p => decide (b.2 < p.1) && decide (p.1 ≤ hi))
        ≤ pairs.countP (fun p => decide (b.1 < p.1) && decide (p.1 ≤ hi)) := by
      apply countP_or_le
      intro x hx
      refine ⟨?_, ?_, ?_⟩
      · intro hp
        simp only [Bool.and_eq_true, decide_eq_true_eq] at hp ⊢
        exact ⟨hp.1, le_trans hp.2 hhi⟩
      · intro hq
        simp only [Bool.and_eq_true, decide_eq_true_eq] at hq ⊢
        exact ⟨lt_of_le_of_lt h2 hq.1, hq.2⟩
      · rintro ⟨hp, hq⟩
        simp only [Bool.and_eq_true, decide_eq_true_eq] at hp hq
        exact absurd hq.1 (not_lt.mpr hp.2)
    have hcast : ((pairs.countP (fun p => decide (b.1 < p.1) && decide (p.1 ≤ b.2)) : ℚ)
        + (pairs.countP (fun p => decide (b.2 < p.1) && decide (p.1 ≤ hi)) : ℚ))
        ≤ (pairs.countP (fun p => decide (b.1 < p.1) && decide (p.1 ≤ hi)) : ℚ) := by
      exact_mod_cast hcount
    linarith

theorem eceSum_nonneg (pairs : List (ℚ × Nat)) (n : Nat) : 0 ≤ eceSum pairs n := by
  unfold eceSum
  apply qsum_nonneg
  intro x hx
  obtain ⟨b, hb, rfl⟩ := List.mem_map.mp hx
  exact binTerm_nonneg pairs b.1 b.2

theorem binPairs10_eq : binPairs 10 =
    [(0, 1/10), (1/10, 1/5), (1/5, 3/10), (3/10, 2/5), (2/5, 1/2),
     (1/2, 3/5), (3/5, 7/10), (7/10, 4/5), (4/5, 9/10), (9/10, 1)] := by
  norm_num [binPairs, binBoundaries, List.range_succ]

theorem chainedBins_binPairs10 : chainedBins 0 (binPairs 10) 1 = true := by
  rw [binPairs10_eq]
  simp only [chainedBins, Bool.and_eq_true, decide_eq_true_eq]
  norm_num

theorem eceSum_le_length (pairs : List (ℚ × Nat))
    (hc : ∀ p ∈ pairs, 0 ≤ p.1 ∧ p.1 ≤ 1) (hl : ∀ p ∈ pairs, p.2 ≤ 1) :
    eceSum pairs 10 ≤ (pairs.length : ℚ) := by
  have h := sumBinTerm_le pairs hc hl (binPairs 10) 0 1 chainedBins_binPairs10
  have h2 : ((pairs.countP fun p => decide ((0:ℚ) < p.1) && decide (p.1 ≤ 1)) : ℚ)
      ≤ (pairs.length : ℚ) := by
    exact_mod_cast List.countP_le_length _
  exact le_trans h h2

/-- C6 counterexample: at zero total samples `calculate_ece` divides 0.0 by
`len(confidences) = 0` and raises ZeroDivisionError (modelled as none) rather
than returning exactly 0.0. -/
theorem ece_zero_samples_counterexample :
    calculate_ece [] [] [] 10 = none ∧ ¬(calculate_ece [] [] [] 10 = some 0) := by
  refine ⟨rfl, fun h => ?_⟩
  rw [show calculate_ece [] [] [] 10 = none from rfl] at h
  exact Option.noConfusion h

/-- C6 amended: for non-empty inputs with confidences in [0,1] and labels in
{0,1}, `calculate_ece` returns a value in [0,1] (empty bins contribute nothing,
so no division by zero occurs inside the loop); at zero total samples the
final division raises ZeroDivisionError (none) instead of returning 0.0. -/
theorem ece_amended :
    (∀ (preds labels : List Nat) (nb : Nat), calculate_ece [] preds labels nb = none)
  ∧ (∀ (confs : List ℚ) (preds labels : List Nat),
        confs ≠ [] →
        (∀ c ∈ confs, 0 ≤ c ∧ c ≤ 1) →
        (∀ l ∈ labels, l = 0 ∨ l = 1) →
        calculate_ece confs preds labels 10
          = some (eceSum (confs.zip labels) 10 / (confs.length : ℚ))
        ∧ 0 ≤ eceSum (confs.zip labels) 10 / (confs.length : ℚ)
        ∧ eceSum (confs.zip labels) 10 / (confs.length : ℚ) ≤ 1) := by
  constructor
  · intro preds labels nb
    rfl
  · intro confs preds labels hne hc hl
    have hne' : confs.length ≠ 0 := fun h => hne (List.length_eq_zero.mp h)
    have hlen : (0:ℚ) < (confs.length : ℚ) := by
      exact_mod_cast Nat.pos_of_ne_zero hne'
    have hcz : ∀ p ∈ confs.zip labels, 0 ≤ p.1 ∧ p.1 ≤ 1 :=
      fun p hp => hc p.1 (List.of_mem_zip hp).1
    have hlz : ∀ p ∈ confs.zip labels, p.2 ≤ 1 := by
      intro p hp
      rcases hl p.2 (List.of_mem_zip hp).2 with h | h <;> omega
    have hnn := eceSum_nonneg (confs.zip labels) 10
    have hle := eceSum_le_length (confs.zip labels) hcz hlz
    have hzlen : ((confs.zip labels).length : ℚ) ≤ (confs.length : ℚ) := by
      have : (confs.zip labels).length ≤ confs.length := by
        rw [List.length_zip]
        exact min_le_left _ _
      exact_mod_cast this
    refine ⟨?_, div_nonneg hnn hlen.le, ?_⟩
    · unfold calculate_ece
      rw [if_neg hne']
    · rw [div_le_one hlen]
      linarith

/-- Witness for the amended C6: the empty input, and a one-sample input with
confidence 0.5 and label 1. -/
theorem ece_amended_witness :
    calculate_ece [] [0] [0] 10 = none
    ∧ calculate_ece [1/2] [1] [1] 10
        = some (eceSum ([(1:ℚ)/2].zip [1]) 10 / (([(1:ℚ)/2] : List ℚ).length : ℚ))
    ∧ 0 ≤ eceSum ([(1:ℚ)/2].zip [1]) 10 / (([(1:ℚ)/2] : List ℚ).length : ℚ)
    ∧ eceSum ([(1:ℚ)/2].zip [1]) 10 / (([(1:ℚ)/2] : List ℚ).length : ℚ) ≤ 1 := by
  have h := ece_amended.2 [1/2] [1] [1] (by simp)
    (by
      intro c hc
      rw [List.mem_singleton] at hc
      subst hc
      norm_num)
    (by
      intro l hl
      rw [List.mem_singleton] at hl
      omega)
  exact ⟨ece_amended.1 [0] [0] 10, h.1, h.2.1, h.2.2⟩

/- Ghost-run invariants for C10. -/

theorem stepG_diag (gs : GStateV1) (u : ℚ)
    (h : gs.st.currentStep < gs.st.segments.length) :
    stepG gs 1 u = { st := (stepV1Core gs.st 1 u).state,
                     g := gs.g ++ [gs.st.currentStep], w := gs.w } := by
  unfold stepG
  rw [if_pos (And.intro rfl h)]

theorem stepG_wait (gs : GStateV1) (u : ℚ) :
    stepG gs 0 u = { st := (stepV1Core gs.st 0 u).state, g := gs.g, w := gs.w + 1 } := by
  unfold stepG
  rw [if_neg (fun hc => absurd hc.1 (by decide)), if_pos rfl]

theorem stepG_else (gs : GStateV1) (a : Int) (u : ℚ)
    (h : ¬(a = 1 ∧ gs.st.currentStep < gs.st.segments.length)) (h0 : a ≠ 0) :
    stepG gs a u = { st := (stepV1Core gs.st a u).state, g := gs.g, w := gs.w } := by
  unfold stepG
  rw [if_neg h, if_neg h0]

theorem stepG_inv (gs : GStateV1) (a : Int) (u : ℚ) (h : GInv gs) :
    GInv (stepG gs a u) := by
  obtain ⟨h1, h2, h3⟩ := h
  by_cases hd : a = 1 ∧ gs.st.currentStep < gs.st.segments.length
  · obtain ⟨ha, hlt⟩ := hd
    subst ha
    rw [stepG_diag gs u hlt]
    obtain ⟨seg, hseg⟩ : ∃ seg, gs.st.segments.get? gs.st.currentStep = some seg :=
      ⟨_, List.get?_eq_get hlt⟩
    rw [stepV1Core_diag_some gs.st u seg hseg, finishV1_state]
    refine ⟨?_, ?_, ?_⟩
    · show gs.st.currentStep + 1 = gs.w + (gs.st.predictions ++ [_]).length
      rw [List.length_append]
      simp only [List.length_singleton]
      omega
    · show (gs.g ++ [gs.st.currentStep]).length = (gs.st.predictions ++ [_]).length
      rw [List.length_append, List.length_append, h2]
      rfl
    · show gs.st.timestamps ++ [(gs.st.currentStep : ℚ) * 10]
        = (gs.g ++ [gs.st.currentStep]).map tsOfCursor
      rw [List.map_append, h3]
      rfl
  · by_cases h0 : a = 0
    · subst h0
      rw [stepG_wait gs u, stepV1Core_wait]
      refine ⟨?_, h2, h3⟩
      show gs.st.currentStep + 1 = gs.w + 1 + gs.st.predictions.length
      omega
    · rw [stepG_else gs a u hd h0]
      have hstate : (stepV1Core gs.st a u).state = gs.st := by
        by_cases h1' : a = 1
        · subst h1'
          have hge : gs.st.segments.length ≤ gs.st.currentStep := by
            by_contra hlt
            exact hd ⟨rfl, by omega⟩
          rw [stepV1Core_diag_none gs.st u (List.get?_eq_none.mpr hge), finishV1_state]
        · by_cases h2' : a = 2
          · subst h2'
            rw [stepV1Core_esc, finishV1_state]
          · rw [stepV1Core_other gs.st a u h0 h1' h2', finishV1_state]
      rw [hstate]
      exact ⟨h1, h2, h3⟩

theorem runG_append (gs : GStateV1) (t1 t2 : List (Int × ℚ)) :
    runG gs (t1 ++ t2) = runG (runG gs t1) t2 :=
  List.foldl_append _ _ _ _

theorem runG_inv (t : List (Int × ℚ)) : ∀ gs, GInv gs → GInv (runG gs t) := by
  induction t with
  | nil =>
    intro gs h
    exact h
  | cons p t ih =>
    intro gs h
    exact ih (stepG gs p.1 p.2) (stepG_inv gs p.1 p.2 h)

theorem stepG_g_extends (gs : GStateV1) (a : Int) (u : ℚ) :
    ∃ d, (stepG gs a u).g = gs.g ++ d := by
  unfold stepG
  split_ifs
  · exact ⟨[gs.st.currentStep], rfl⟩
  · exact ⟨[], (List.append_nil _).symm⟩
  · exact ⟨[], (List.append_nil _).symm⟩

theorem runG_g_extends (t : List (Int × ℚ)) : ∀ gs, ∃ d, (runG gs t).g = gs.g ++ d := by
  induction t with
  | nil =>
    intro gs
    exact ⟨[], (List.append_nil _).symm⟩
  | cons p t ih =>
    intro gs
    obtain ⟨d1, hd1⟩ := stepG_g_extends gs p.1 p.2
    obtain ⟨d2, hd2⟩ := ih (stepG gs p.1 p.2)
    refine ⟨d1 ++ d2, ?_⟩
    show (runG (stepG gs p.1 p.2) t).g = _
    rw [hd2, hd1, List.append_assoc]

theorem runG_g_lower (t : List (Int × ℚ)) :
    ∀ gs : GStateV1, GInv gs → ∀ i v, gs.g.length ≤ i →
      (runG gs t).g.get? i = some v → gs.w + i ≤ v := by
  induction t with
  | nil =>
    intro gs hinv i v hge hget
    rw [show runG gs [] = gs from rfl, List.get?_eq_none.mpr hge] at hget
    exact Option.noConfusion hget
  | cons p t ih =>
    intro gs hinv i v hge hget
    rw [show runG gs (p :: t) = runG (stepG gs p.1 p.2) t from rfl] at hget
    have hinv' := stepG_inv gs p.1 p.2 hinv
    by_cases hd : p.1 = 1 ∧ gs.st.currentStep < gs.st.segments.length
    · have hg' : (stepG gs p.1 p.2).g = gs.g ++ [gs.st.currentStep] := by
        rw [hd.1, stepG_diag gs p.2 hd.2]
      have hw' : (stepG gs p.1 p.2).w = gs.w := by
        rw [hd.1, stepG_diag gs p.2 hd.2]
      rcases Nat.lt_or_ge i (gs.g.length + 1) with hlt' | hge'
      · have hi : i = gs.g.length := by omega
        subst hi
        obtain ⟨d, hdext⟩ := runG_g_extends t (stepG gs p.1 p.2)
        rw [hdext, hg', List.append_assoc,
            List.get?_append_right (le_refl gs.g.length)] at hget
        simp only [Nat.sub_self, List.singleton_append, List.get?_cons_zero,
          Option.some.injEq] at hget
        obtain ⟨h1, h2, -⟩ := hinv
        omega
      · have := ih (stepG gs p.1 p.2) hinv' i v (by rw [hg', List.length_append]; simp; omega)
          hget
        rw [hw'] at this
        exact this
    · have hg' : (stepG gs p.1 p.2).g = gs.g := by
        by_cases h0 : p.1 = 0
        · rw [h0, stepG_wait gs p.2]
        · rw [stepG_else gs p.1 p.2 hd h0]
      have hw' : gs.w ≤ (stepG gs p.1 p.2).w := by
        by_cases h0 : p.1 = 0
        · rw [h0, stepG_wait gs p.2]
          exact Nat.le_succ _
        · rw [stepG_else gs p.1 p.2 hd h0]
      have := ih (stepG gs p.1 p.2) hinv' i v (by rw [hg']; exact hge) hget
      omega

/-- C10: `get_episode_metrics` scores the i-th recorded prediction against the
patient's i-th segment label (`labels[:n_predictions]`): with enough labels the
returned record's accuracy and ECE are built from
`(segments.map label).take n`.  Meanwhile the ghost run shows the segment a
DIAGNOSE actually scored (`timestamps = 10 * diagnosed cursor`), and after any
WAIT every later recorded prediction has diagnosed cursor strictly greater
than its metric label index, so the metrics are computed against labels of
different segments than the ones diagnosed. -/
theorem metrics_label_misalignment :
    (∀ s : StateV1,
        s.predictions ≠ [] →
        s.predictions.length ≤ s.segments.length →
        getEpisodeMetricsV1 s = some
          { accuracy := (matchCount s.predictions
              ((s.segments.map Segment.label).take s.predictions.length) : ℚ)
              / (s.predictions.length : ℚ),
            ece := eceSum (s.confidences.zip
              ((s.segments.map Segment.label).take s.predictions.length)) 10
              / (s.predictions.length : ℚ),
            meanConfidence := s.confidences.sum / (s.confidences.length : ℚ),
            nPredictions := s.predictions.length,
            nApneaEvents := s.predictions.sum,
            severityScore := calculateSeverityScore s.predictions s.timestamps })
  ∧ (∀ (segments : List Segment) (dim maxLen : Nat) (t1 : List (Int × ℚ)) (u0 : ℚ)
        (t2 : List (Int × ℚ)),
        (runG (initG segments dim maxLen) (t1 ++ [(0, u0)] ++ t2)).st.timestamps
          = (runG (initG segments dim maxLen) (t1 ++ [(0, u0)] ++ t2)).g.map tsOfCursor
        ∧ ∀ i v,
            (runG (initG segments dim maxLen) (t1 ++ [(0, u0)])).st.predictions.length ≤ i →
            (runG (initG segments dim maxLen) (t1 ++ [(0, u0)] ++ t2)).g.get? i = some v →
            i < v) := by
  constructor
  · intro s hne hlen
    have hn0 : ¬(s.predictions.length = 0) := fun h => hne (List.length_eq_zero.mp h)
    have hlab : ((s.segments.map Segment.label).take s.predictions.length).length
        = s.predictions.length := by
      rw [List.length_take, List.length_map]
      omega
    have hcond' : ((((s.segments.map Segment.label).take s.predictions.length).length
        < s.predictions.length)) = False := eq_false (by omega)
    have hn0' : (s.predictions.length = 0) = False := eq_false hn0
    have hpos' : (0 < s.predictions.length) = True := eq_true (by omega)
    simp only [getEpisodeMetricsV1, hcond', hn0', hpos', if_false, if_true]
  · intro segments dim maxLen t1 u0 t2
    have hinv0 : GInv (initG segments dim maxLen) := ⟨rfl, rfl, rfl⟩
    have hmidinv : GInv (runG (initG segments dim maxLen) (t1 ++ [(0, u0)])) :=
      runG_inv _ _ hinv0
    constructor
    · exact (runG_inv _ _ hinv0).2.2
    · intro i v hge hget
      have hmid : runG (initG segments dim maxLen) (t1 ++ [(0, u0)])
          = stepG (runG (initG segments dim maxLen) t1) 0 u0 := by
        rw [runG_append]
        rfl
      have hw1 : 1 ≤ (runG (initG segments dim maxLen) (t1 ++ [(0, u0)])).w := by
        rw [hmid, stepG_wait]
        show 1 ≤ (runG (initG segments dim maxLen) t1).w + 1
        omega
      have hglen : (runG (initG segments dim maxLen) (t1 ++ [(0, u0)])).g.length ≤ i := by
        rw [hmidinv.2.1]
        exact hge
      rw [runG_append] at hget
      have := runG_g_lower t2 _ hmidinv i v hglen hget
      omega

/-- Witness for C10: the metrics of the episode state `sC10` (one WAIT, then
one DIAGNOSE of segment 1) score its single prediction against the label of
segment 0, while the ghost run records diagnosed cursor 1 > 0. -/
theorem metrics_label_misalignment_witness :
    getEpisodeMetricsV1 sC10 = some
      { accuracy := (matchCount sC10.predictions
          ((sC10.segments.map Segment.label).take sC10.predictions.length) : ℚ)
          / (sC10.predictions.length : ℚ),
        ece := eceSum (sC10.confidences.zip
          ((sC10.segments.map Segment.label).take sC10.predictions.length)) 10
          / (sC10.predictions.length : ℚ),
        meanConfidence := sC10.confidences.sum / (sC10.confidences.length : ℚ),
        nPredictions := sC10.predictions.length,
        nApneaEvents := sC10.predictions.sum,
        severityScore := calculateSeverityScore sC10.predictions sC10.timestamps }
    ∧ (0 : Nat) < 1 := by
  constructor
  · exact metrics_label_misalignment.1 sC10 (by decide) (by decide)
  · exact (metrics_label_misalignment.2 [⟨[0], 0⟩, ⟨[0], 1⟩, ⟨[0], 1⟩] 1 100 [] 0
      [(1, 2/5)]).2 0 1 (by decide) rfl
